import Mathlib

/-
Verification development for the websocket card-game server
(`src/server/server.py`).  The `GameServer` request handlers are embedded
directly from `server.py`.  The engine modules it imports (`game.py` with
`CardGame`/`ScoreKeeper`, `cards.py` with `Card`/`HandInfo`/`PlayerMove`,
`player.py` with `Player`/`HumanPlayer`) are not part of the repository
snapshot; their definitions below are modelled from the specification and
are marked as such in their doc comments.
-/

namespace Troefcall

/-- The four suits of the 32-card deck (spec section 3: S1..S4). -/
inductive Suit
  | s1 | s2 | s3 | s4
deriving DecidableEq

/-- The eight ranks A,K,Q,J,10,9,8,7 (spec section 2). -/
inductive Rank
  | r7 | r8 | r9 | r10 | rJ | rQ | rK | rA
deriving DecidableEq

/-- Modelled from the spec: the standard rank table used for plain (led-suit)
comparison, A high (`game.py`/`cards.py` are absent from the snapshot). -/
def rankValue : Rank → Nat
  | .r7 => 0 | .r8 => 1 | .r9 => 2 | .r10 => 3
  | .rJ => 4 | .rQ => 5 | .rK => 6 | .rA => 7

/-- Modelled from the spec: the trump rank table is a configurable policy
(section 9); the standard A-high table is used here. -/
def trumpRankValue : Rank → Nat := rankValue

/-- Immutable (suit, rank) value, equality componentwise (spec section 3). -/
structure Card where
  suit : Suit
  rank : Rank
deriving DecidableEq

/-- Modelled from the spec: a player is identity, team, a capability tag
(Human vs Automated, spec section 9 recommends an explicit tag) and a hand
of cards (`player.py` is absent from the snapshot). -/
structure Player where
  id : Nat
  name : String
  team : String
  isHuman : Bool
  hand : List Card
deriving DecidableEq

/-- Modelled from the spec: one (player, card) move of a trick
(`cards.py` is absent from the snapshot).  The embedded `player` is the
snapshot taken when the move was made; later code reads only its
immutable identity fields (`id`, `team`). -/
structure PlayerMove where
  player : Player
  card : Card
deriving DecidableEq

/-- Modelled from the spec: the trick ("hand" in source terms) is the
ordered sequence of moves played so far (`cards.py` is absent). -/
structure HandInfo where
  moves : List PlayerMove
deriving DecidableEq

/-- The fixed table size of this game: 4 players, 2 teams. -/
def numPlayers : Nat := 4

/-- Modelled from the spec: `step` is the count of moves already made in the
current trick (spec section 4.3). -/
def HandInfo.getStep (h : HandInfo) : Nat := h.moves.length

/-- Modelled from the spec: a trick is complete iff exactly `numPlayers`
moves are recorded (spec section 4.4). -/
def HandInfo.isComplete (h : HandInfo) : Bool := h.moves.length == numPlayers

/-- Modelled from the spec: the led suit is the suit of the first move,
absent while the trick is empty (spec section 3). -/
def HandInfo.ledSuit (h : HandInfo) : Option Suit :=
  h.moves.head?.map (fun m => m.card.suit)

/-- Modelled from the spec: `addMove` appends unconditionally once validated
by the caller (spec section 4.4). -/
def HandInfo.addPlayerMove (h : HandInfo) (m : PlayerMove) : HandInfo :=
  ⟨h.moves ++ [m]⟩

/-- Modelled from the spec, section 4.4 must-follow-suit policy: if the
acting player holds at least one card of the led suit the move's card must
be of the led suit; otherwise any card in hand is legal.  The trump suit
does not constrain legality under the weaker rule the spec mandates
(section 9, trump-forcing left unimplemented). -/
def HandInfo.validatePlayerMove (h : HandInfo) (m : PlayerMove)
    (trumpSuit : Option Suit) : Bool :=
  m.player.hand.contains m.card &&
    match h.ledSuit with
    | none => true
    | some led =>
      if m.player.hand.any (fun c => c.suit == led) then m.card.suit == led
      else true

/-- Pick the move with the highest value; the earlier move wins ties. -/
def bestMove (val : PlayerMove → Nat) : List PlayerMove → Option PlayerMove
  | [] => none
  | m :: rest => some (rest.foldl (fun best mv => if val best < val mv then mv else best) m)

/-- Modelled from the spec, section 4.4: on a complete trick, if any move
used the trump suit the highest trump move wins, otherwise the highest
move of the led suit wins; `none` models `IncompleteTrickError` before
completion. -/
def HandInfo.decideWinner (h : HandInfo) (trumpSuit : Option Suit) : Option PlayerMove :=
  if h.isComplete then
    match h.ledSuit with
    | none => none
    | some led =>
      let trumpMoves := match trumpSuit with
        | some t => h.moves.filter (fun m => m.card.suit == t)
        | none => []
      if trumpMoves.isEmpty then
        bestMove (fun m => rankValue m.card.rank) (h.moves.filter (fun m => m.card.suit == led))
      else
        bestMove (fun m => trumpRankValue m.card.rank) trumpMoves
  else none

/-- The named failure conditions of the engine (spec sections 4 and 7).
`loopLimit` stands for divergence of the ask-players loop, which is
unreachable while a trick holds at most `numPlayers` moves. -/
inductive Err
  | matchAlreadyDecided
  | dealOrder
  | invalidTrump
  | deckExhausted
  | cardNotInHand
  | noDecisionYet
  | playerNotFound
  | incompleteTrick
  | loopLimit
  | noGame
  | nonHandlerAttr
deriving DecidableEq

/-- Modelled from the spec, section 4.6: removing an accepted card from the
hand; fails with `CardNotInHandError` if absent. -/
def Player.removeCard (p : Player) (c : Card) : Except Err Player :=
  if p.hand.contains c then .ok { p with hand := p.hand.erase c }
  else .error .cardNotInHand

/-- Modelled from the spec, section 4.6: an Automated player synchronously
returns a card from its hand that passes `validatePlayerMove`; the first
legal card of the hand is chosen. -/
def Player.getNextMove (p : Player) (h : HandInfo) (trumpSuit : Option Suit) : Option Card :=
  p.hand.find? (fun c => h.validatePlayerMove ⟨p, c⟩ trumpSuit)

/-- Modelled from the spec, section 4.5: the trick point value credited by
`registerWin`.  `server.py` passes only the winning player, so the value
cannot depend on the trick; the rank-to-point table is an unspecified
injectable policy (section 9) and is modelled as a fixed positive value. -/
def trickPoints : Nat := 1

/-- Modelled from the spec, section 8 match-decision scenario: the win
threshold of a match. -/
def winThreshold : Nat := 16

/-- Modelled from the spec, section 4.5: accumulated points per team
(`game.py` is absent from the snapshot). -/
structure ScoreKeeper where
  scores : List (String × Nat)
deriving DecidableEq

/-- Modelled from the spec: a fresh ScoreKeeper lists each distinct team of
the roster, in roster order, with zero points. -/
def ScoreKeeper.new (players : List Player) : ScoreKeeper :=
  ⟨players.foldl
    (fun acc p => if acc.any (fun e => e.1 == p.team) then acc else acc ++ [(p.team, 0)])
    []⟩

/-- Modelled from the spec, section 4.5: credit the winning player's team
with the trick's point value. -/
def ScoreKeeper.registerWin (sk : ScoreKeeper) (p : Player) : ScoreKeeper :=
  ⟨sk.scores.map (fun e => if e.1 == p.team then (e.1, e.2 + trickPoints) else e)⟩

/-- Modelled from the spec, section 4.5: read-only snapshot of the score
mapping. -/
def ScoreKeeper.getScores (sk : ScoreKeeper) : List (String × Nat) := sk.scores

/-- Modelled from the spec, section 4.5: true once a team's accumulated
score reaches or exceeds the win threshold. -/
def ScoreKeeper.isGameDecided (sk : ScoreKeeper) : Bool :=
  sk.scores.any (fun e => decide (winThreshold ≤ e.2))

/-- Modelled from the spec, section 4.5: the team meeting the threshold;
`NoDecisionYetError` if no team does. -/
def ScoreKeeper.getWinningTeam (sk : ScoreKeeper) : Except Err String :=
  match sk.scores.find? (fun e => decide (winThreshold ≤ e.2)) with
  | some e => .ok e.1
  | none => .error .noDecisionYet

/-- Modelled from the spec, section 4.5: reset every team to zero. -/
def ScoreKeeper.clearTeamScores (sk : ScoreKeeper) : ScoreKeeper :=
  ⟨sk.scores.map (fun e => (e.1, 0))⟩

/-- The score of one team, zero when the team is unknown. -/
def ScoreKeeper.scoreOf (sk : ScoreKeeper) (team : String) : Nat :=
  ((sk.scores.find? (fun e => e.1 == team)).map (fun e => e.2)).getD 0

/-- The full 32-card deck, one card per (suit, rank) pair. -/
def fullDeck : List Card :=
  ([Suit.s1, Suit.s2, Suit.s3, Suit.s4].map
    (fun s => [Rank.r7, Rank.r8, Rank.r9, Rank.r10, Rank.rJ, Rank.rQ, Rank.rK, Rank.rA].map
      (fun r => Card.mk s r))).flatten

/-- Modelled from the spec, sections 3 and 4.3: one round's orchestration
state (`game.py` is absent from the snapshot).  `playingOrder` is the
rotation as a list of player ids; `startingPlayerIndex` anchors it;
`decided` is the sticky match-decided mark set by `processWin`.
Shuffling is abstracted: the deck is consumed in its canonical order. -/
structure CardGame where
  players : List Player
  playingOrder : List Nat
  startingPlayerIndex : Nat
  trumpSuit : Option Suit
  deck : List Card
  firstDealt : Bool
  decided : Option String
  id : Nat
deriving DecidableEq

/-- Modelled from the spec: a fresh CardGame for a roster, before
`setPlayingOrder` and any dealing. -/
def CardGame.new (players : List Player) : CardGame :=
  { players := players, playingOrder := [], startingPlayerIndex := 0,
    trumpSuit := none, deck := fullDeck, firstDealt := false,
    decided := none, id := 0 }

/-- Replace the roster entry with the given player's id (the Lean rendering
of Python's in-place mutation of a shared `Player` object). -/
def CardGame.updatePlayer (g : CardGame) (p : Player) : CardGame :=
  { g with players := g.players.map (fun q => if q.id == p.id then p else q) }

/-- Look a player up by id in the roster. -/
def CardGame.getPlayerById (g : CardGame) (pid : Nat) : Option Player :=
  g.players.find? (fun p => p.id == pid)

/-- Modelled from the spec, section 4.3: fix the rotation for the round;
the starting index (fairness rule or external override) anchors it. -/
def CardGame.setPlayingOrder (g : CardGame) : CardGame :=
  { g with playingOrder := g.players.map (fun p => p.id) }

/-- The rotation as reported to the client. -/
def CardGame.getOrder (g : CardGame) : List Nat := g.playingOrder

/-- The player at rotation position `(startingPlayerIndex + step) mod n`
(spec section 4.3), without the decided-match guard. -/
def CardGame.playerAt (g : CardGame) (step : Nat) : Option Player :=
  match g.playingOrder.get? ((g.startingPlayerIndex + step) % g.playingOrder.length) with
  | none => none
  | some pid => g.getPlayerById pid

/-- Modelled from the spec, sections 4.3 and 7: the next player to act;
fails with `MatchAlreadyDecidedError` once `processWin` has marked the
match concluded. -/
def CardGame.getNextPlayer (g : CardGame) (step : Nat) : Except Err Player :=
  if g.decided.isSome then .error .matchAlreadyDecided
  else
    match g.playerAt step with
    | some p => .ok p
    | none => .error .playerNotFound

/-- Index of the first occurrence of an id in the rotation list. -/
def idIndex : List Nat → Nat → Option Nat
  | [], _ => none
  | x :: rest, pid => if x == pid then some 0 else (idIndex rest pid).map (fun i => i + 1)

/-- Modelled from the spec, sections 4.3 and 7: re-anchor the rotation so
the winner leads the next trick; a move/trick operation, so it fails with
`MatchAlreadyDecidedError` on a decided match. -/
def CardGame.changePlayingOrder (g : CardGame) (winner : Player) : Except Err CardGame :=
  if g.decided.isSome then .error .matchAlreadyDecided
  else
    match idIndex g.playingOrder winner.id with
    | none => .error .playerNotFound
    | some i => .ok { g with startingPlayerIndex := i }

/-- Modelled from the spec, section 4.3: mark the match concluded for a
team; the mark is sticky. -/
def CardGame.processWin (g : CardGame) (team : String) : CardGame :=
  { g with decided := some team }

/-- Modelled from the spec, section 4.3: record the trump suit; fails with
`InvalidTrumpError` if called before `dealFirstCards` (with `Suit` an
enumeration, the not-a-suit case cannot arise). -/
def CardGame.chooseTrump (g : CardGame) (suit : Suit) : Except Err CardGame :=
  if g.firstDealt then .ok { g with trumpSuit := some suit }
  else .error .invalidTrump

/-- Deal `count` cards from the front of the deck to the player at each
listed rotation step; `DeckExhaustedError` if the deck runs short. -/
def CardGame.dealSteps (count : Nat) : CardGame → List Nat → Except Err CardGame
  | g, [] => .ok g
  | g, step :: rest =>
    match g.playerAt step with
    | none => .error .playerNotFound
    | some p =>
      if g.deck.length < count then .error .deckExhausted
      else
        CardGame.dealSteps count
          { (g.updatePlayer { p with hand := p.hand ++ g.deck.take count }) with
              deck := g.deck.drop count }
          rest

/-- Modelled from the spec, section 4.2: the size of the partial first deal
that precedes trump selection; first and remainder deals together give each
player 32/4 = 8 cards. -/
def firstDealCount : Nat := 4

/-- Modelled from the spec, sections 4.2 and 4.3: deal the partial hand to
every player in playing order. -/
def CardGame.dealFirstCards (g : CardGame) : Except Err CardGame :=
  (CardGame.dealSteps firstDealCount g (List.range numPlayers)).map
    (fun g1 => { g1 with firstDealt := true })

/-- Modelled from the spec, sections 4.2 and 4.3: deal the remainder of the
deck evenly; fails with `DealOrderError` if the trump suit is unset. -/
def CardGame.dealCards (g : CardGame) : Except Err CardGame :=
  match g.trumpSuit with
  | none => .error .dealOrder
  | some _ => CardGame.dealSteps (g.deck.length / numPlayers) g (List.range numPlayers)

/-- Modelled from the spec, section 4.3: release the round's deck and trump
state between rounds, retaining players, rotation and the decided mark. -/
def CardGame.clearGame (g : CardGame) : CardGame :=
  { g with deck := fullDeck, trumpSuit := none, firstDealt := false }

/-- One decoded inbound websocket request (`server.py`, `on_message`):
the dispatch key plus the union of the fields the handlers read. -/
structure Request where
  command : String
  playerName : String
  playerTeam : String
  opponentTeam : String
  playerId : Nat
  suit : Suit
  rank : Rank
deriving DecidableEq

/-- The outbound messages `server.py` writes, keyed by their `response`
field. -/
inductive Msg
  | started (players : List Player) (order : List Nat) (gameId : Nat)
  | nextGameResp
  | dealtFirstCards (cards : List Card)
  | allCards (cards : List Card) (trumpSuit : Suit)
  | askMove (hand : HandInfo)
  | handPlayed (hand : HandInfo) (winningCard : Card) (winningPlayerId : Nat)
      (scores : List (String × Nat))
  | invalidMove (playerId : Nat)
  | gameDecided (scores : List (String × Nat)) (winningTeam : String)
deriving DecidableEq

/-- The per-connection server state (`server.py`, `GameServer.__init__`);
the writer is rendered as the list of messages an operation produces. -/
structure GameServer where
  players : List Player
  cardGame : Option CardGame
  scores : Option ScoreKeeper
  hand : Option HandInfo
deriving DecidableEq

/-- The fresh state built on websocket open. -/
def GameServer.new : GameServer :=
  { players := [], cardGame := none, scores := none, hand := none }

/-- Embeds `server.py` `createPlayers`: the fixed four-seat roster, the single
human first, then the remaining seats in the order [p3, p2, p4]. -/
def createPlayers (playerName team1Name team2Name : String) : List Player :=
  let p1 : Player := ⟨1, playerName, team1Name, true, []⟩
  let p2 : Player := ⟨2, "Bob Marley", team1Name, false, []⟩
  let p3 : Player := ⟨3, "Tupac Shakur", team2Name, false, []⟩
  let p4 : Player := ⟨4, "Jimi Hendrix", team2Name, false, []⟩
  [p1, p3, p2, p4]

/-- Embeds `server.py` `startGame`: build roster, CardGame and ScoreKeeper, force
`startingPlayerIndex := 0` (the external override; the fairness rule
`decideOrder` is commented out in the source), fix the rotation, and
answer with roster, order and game id. -/
def GameServer.startGame (s : GameServer) (req : Request) :
    Except Err (GameServer × List Msg) :=
  let players := createPlayers req.playerName req.playerTeam req.opponentTeam
  let g0 := CardGame.new players
  let g1 := { g0 with startingPlayerIndex := 0 }
  let g2 := g1.setPlayingOrder
  let sk := ScoreKeeper.new players
  .ok ({ s with players := players, cardGame := some g2, scores := some sk },
       [Msg.started g2.players g2.getOrder g2.id])

/-- Embeds `server.py` `nextGame`: clear the round state and the team scores, then
acknowledge. -/
def GameServer.nextGame (s : GameServer) (_req : Request) :
    Except Err (GameServer × List Msg) :=
  match s.cardGame, s.scores with
  | some g, some sk =>
    .ok ({ s with cardGame := some g.clearGame, scores := some sk.clearTeamScores },
         [Msg.nextGameResp])
  | _, _ => .error .noGame

/-- Embeds `server.py` `dealFirstCards`: deal the partial hands, then answer with
the requesting player's cards. -/
def GameServer.dealFirstCards (s : GameServer) (req : Request) :
    Except Err (GameServer × List Msg) :=
  match s.cardGame with
  | none => .error .noGame
  | some g =>
    match g.dealFirstCards with
    | .error e => .error e
    | .ok g1 =>
      match g1.getPlayerById req.playerId with
      | none => .error .playerNotFound
      | some player =>
        .ok ({ s with cardGame := some g1 }, [Msg.dealtFirstCards player.hand])

/-- Embeds `server.py` `chooseTrump`: record the trump suit, deal the remainder in
the same action, then answer with the requesting player's full hand and
the chosen suit. -/
def GameServer.chooseTrump (s : GameServer) (req : Request) :
    Except Err (GameServer × List Msg) :=
  match s.cardGame with
  | none => .error .noGame
  | some g =>
    match g.chooseTrump req.suit with
    | .error e => .error e
    | .ok g1 =>
      match g1.dealCards with
      | .error e => .error e
      | .ok g2 =>
        match g2.getPlayerById req.playerId with
        | none => .error .playerNotFound
        | some player =>
          .ok ({ s with cardGame := some g2 }, [Msg.allCards player.hand req.suit])

/-- The `while not self.hand.isComplete()` loop of `server.py`
`askPlayers`: Automated players are resolved synchronously (their card is
removed from their hand as the spec's section 3 hand invariant requires);
reaching a Human player sends `askMove` and breaks.  The fuel argument
bounds the iterations; `numPlayers` suffices for every trick of at most
`numPlayers` moves, and exhaustion (`loopLimit`) renders the divergence
the Python loop would exhibit on an oversized trick. -/
def askLoop : Nat → CardGame → HandInfo → Except Err (CardGame × HandInfo × List Msg)
  | 0, g, h => if h.isComplete then .ok (g, h, []) else .error .loopLimit
  | Nat.succ fuel, g, h =>
    if h.isComplete then .ok (g, h, [])
    else
      match g.getNextPlayer h.getStep with
      | .error e => .error e
      | .ok player =>
        if player.isHuman then .ok (g, h, [Msg.askMove h])
        else
          match player.getNextMove h g.trumpSuit with
          | none => .error .cardNotInHand
          | some card =>
            match player.removeCard card with
            | .error e => .error e
            | .ok p2 =>
              askLoop fuel (g.updatePlayer p2) (h.addPlayerMove ⟨player, card⟩)

/-- Embeds `server.py` `askPlayers`: run the ask loop; when the trick completes,
resolve the winner, register it with the ScoreKeeper, re-anchor the
rotation to the winner and send the single `handPlayed` response. -/
def GameServer.askPlayers (s : GameServer) : Except Err (GameServer × List Msg) :=
  match s.cardGame, s.hand, s.scores with
  | some g, some h, some sk =>
    match askLoop numPlayers g h with
    | .error e => .error e
    | .ok (g1, h1, msgs) =>
      if h1.isComplete then
        match h1.decideWinner g.trumpSuit with
        | none => .error .incompleteTrick
        | some winningMove =>
          let winningPlayer := winningMove.player
          let sk2 := sk.registerWin winningPlayer
          match g1.changePlayingOrder winningPlayer with
          | .error e => .error e
          | .ok g2 =>
            .ok ({ s with cardGame := some g2, hand := some h1, scores := some sk2 },
                 msgs ++ [Msg.handPlayed h1 winningMove.card winningPlayer.id sk2.getScores])
      else
        .ok ({ s with cardGame := some g1, hand := some h1 }, msgs)
  | _, _, _ => .error .noGame

/-- Embeds `server.py` `makeMove`: validate the human player's card; an invalid
card yields a plain `invalidMove` notice and changes nothing, a valid card
is added to the trick, removed from the hand, and the ask loop resumes. -/
def GameServer.makeMove (s : GameServer) (req : Request) :
    Except Err (GameServer × List Msg) :=
  match s.cardGame, s.hand with
  | some g, some h =>
    match g.getPlayerById req.playerId with
    | none => .error .playerNotFound
    | some player =>
      let playedCard : Card := ⟨req.suit, req.rank⟩
      let playerMove : PlayerMove := ⟨player, playedCard⟩
      if h.validatePlayerMove playerMove g.trumpSuit then
        match player.removeCard playedCard with
        | .error e => .error e
        | .ok p2 =>
          GameServer.askPlayers
            { s with cardGame := some (g.updatePlayer p2),
                     hand := some (h.addPlayerMove playerMove) }
      else
        .ok (s, [Msg.invalidMove req.playerId])
  | _, _ => .error .noGame

/-- Embeds `server.py` `isReady`: if the ScoreKeeper reports the match decided,
invoke `processWin` and send `gameDecided` with final scores and winning
team; otherwise construct a fresh empty trick and enter the ask-players
sequence for it. -/
def GameServer.isReady (s : GameServer) (_req : Request) :
    Except Err (GameServer × List Msg) :=
  match s.scores with
  | none => .error .noGame
  | some sk =>
    if sk.isGameDecided then
      match s.cardGame with
      | none => .error .noGame
      | some g =>
        match sk.getWinningTeam with
        | .error e => .error e
        | .ok winningTeam =>
          .ok ({ s with cardGame := some (g.processWin winningTeam) },
               [Msg.gameDecided sk.getScores winningTeam])
    else
      GameServer.askPlayers { s with hand := some ⟨[]⟩ }

/-- The attribute names of the Python `GameServer` object that
`hasattr` can see (its instance fields and methods; the dunder attributes
inherited from `object` are not rendered). -/
def gameServerAttrs : List String :=
  ["players", "writer", "cardGame", "scores", "hand",
   "setWriter", "createPlayers", "startGame", "nextGame", "dealFirstCards",
   "chooseTrump", "askPlayers", "makeMove", "isReady"]

/-- Embeds `server.py` `MessageHandler.on_message`: dispatch on the `command`
field via `hasattr`/`getattr`.  A command naming a request handler runs
it; a command naming some other attribute makes Python call a
non-handler object (rendered as `nonHandlerAttr`); an unknown command is
only logged: no message is sent and the state is untouched. -/
def GameServer.on_message (s : GameServer) (req : Request) :
    Except Err (GameServer × List Msg) :=
  if req.command = "startGame" then s.startGame req
  else if req.command = "nextGame" then s.nextGame req
  else if req.command = "dealFirstCards" then s.dealFirstCards req
  else if req.command = "chooseTrump" then s.chooseTrump req
  else if req.command = "makeMove" then s.makeMove req
  else if req.command = "isReady" then s.isReady req
  else if req.command ∈ gameServerAttrs then .error .nonHandlerAttr
  else .ok (s, [])

/-! Concrete states used to evaluate the development on explicit inputs. -/

/-- A human player holding a club-like and a heart-like card. -/
def wAlice : Player := ⟨1, "Alice", "T1", true, [⟨Suit.s2, Rank.r9⟩, ⟨Suit.s3, Rank.rA⟩]⟩

/-- An automated player of the opposing team. -/
def wTupac : Player := ⟨3, "Tupac Shakur", "T2", false, [⟨Suit.s2, Rank.r7⟩]⟩

/-- An automated player of the human's team. -/
def wBob : Player := ⟨2, "Bob Marley", "T1", false, [⟨Suit.s2, Rank.r8⟩]⟩

/-- An automated player of the opposing team. -/
def wJimi : Player := ⟨4, "Jimi Hendrix", "T2", false, [⟨Suit.s2, Rank.r10⟩]⟩

/-- The seating produced by `createPlayers`, with small concrete hands. -/
def wRoster : List Player := [wAlice, wTupac, wBob, wJimi]

/-- A mid-round game: order fixed, trump chosen, deck consumed. -/
def wGame : CardGame :=
  { players := wRoster, playingOrder := [1, 3, 2, 4], startingPlayerIndex := 0,
    trumpSuit := some Suit.s4, deck := [], firstDealt := true, decided := none, id := 0 }

/-- Fresh scores for the two teams. -/
def wScores : ScoreKeeper := ⟨[("T1", 0), ("T2", 0)]⟩

/-- A server state in the middle of a round, empty trick pending. -/
def wServer : GameServer :=
  { players := wRoster, cardGame := some wGame, scores := some wScores, hand := some ⟨[]⟩ }

/-- A generic request whose payload fields are irrelevant. -/
def wReq : Request := ⟨"isReady", "", "", "", 0, Suit.s1, Rank.r7⟩

/-- Scores mid-match, both teams having points. -/
def c1Scores : ScoreKeeper := ⟨[("T1", 5), ("T2", 3)]⟩

/-- A server mid-match with accumulated scores. -/
def c1Server : GameServer := { wServer with scores := some c1Scores }

/-- A trick whose led suit is `s2` (first move by the fourth player). -/
def wTrickLed : HandInfo := ⟨[⟨wJimi, ⟨Suit.s2, Rank.r10⟩⟩]⟩

/-- A server waiting for the human to follow suit `s2`. -/
def c2Server : GameServer := { wServer with hand := some wTrickLed }

/-- The human tries to discard off-suit while holding the led suit. -/
def c2Req : Request := ⟨"makeMove", "", "", "", 1, Suit.s3, Rank.rA⟩

/-- A complete four-move trick, all of suit `s2`, the first move highest. -/
def wTrick4 : HandInfo :=
  ⟨[⟨wJimi, ⟨Suit.s2, Rank.r10⟩⟩, ⟨wAlice, ⟨Suit.s2, Rank.r9⟩⟩,
    ⟨wTupac, ⟨Suit.s2, Rank.r7⟩⟩, ⟨wBob, ⟨Suit.s2, Rank.r8⟩⟩]⟩

/-- A server holding the complete trick. -/
def c4Server : GameServer := { wServer with hand := some wTrick4 }

/-- A game marked decided by `processWin`. -/
def c5Game : CardGame := { wGame with decided := some "T2" }

/-- A server whose match has been decided. -/
def c5Server : GameServer := { wServer with cardGame := some c5Game }

/-- A legal move request by the human (who leads the empty trick). -/
def c5Req : Request := ⟨"makeMove", "", "", "", 1, Suit.s2, Rank.r9⟩

/-- Scores past the win threshold for the first team. -/
def c6Scores : ScoreKeeper := ⟨[("T1", 16), ("T2", 3)]⟩

/-- A server whose ScoreKeeper reports the match decided. -/
def c6Server : GameServer := { wServer with scores := some c6Scores }

/-- A game after the first deal, trump not yet chosen, with a small
remainder deck so the dealt result is explicit. -/
def c7Game : CardGame :=
  { players := [⟨1, "Alice", "T1", true, []⟩, ⟨3, "Tupac Shakur", "T2", false, []⟩,
      ⟨2, "Bob Marley", "T1", false, []⟩, ⟨4, "Jimi Hendrix", "T2", false, []⟩],
    playingOrder := [1, 3, 2, 4], startingPlayerIndex := 0, trumpSuit := none,
    deck := [⟨Suit.s1, Rank.r7⟩, ⟨Suit.s1, Rank.r8⟩, ⟨Suit.s1, Rank.r9⟩,
      ⟨Suit.s1, Rank.r10⟩],
    firstDealt := true, decided := none, id := 0 }

/-- The server before the choose-trump action. -/
def c7Server : GameServer :=
  { players := c7Game.players, cardGame := some c7Game, scores := some wScores,
    hand := none }

/-- The human chooses suit `s2` as trump. -/
def c7Req : Request := ⟨"chooseTrump", "", "", "", 1, Suit.s2, Rank.r7⟩

/-- The game right after the trump suit is recorded. -/
def c7GameA : CardGame := { c7Game with trumpSuit := some Suit.s2 }

/-- The game after the remainder deal: one card to each seat in rotation
order, deck exhausted. -/
def c7GameB : CardGame :=
  { c7GameA with
    players := [⟨1, "Alice", "T1", true, [⟨Suit.s1, Rank.r7⟩]⟩,
      ⟨3, "Tupac Shakur", "T2", false, [⟨Suit.s1, Rank.r8⟩]⟩,
      ⟨2, "Bob Marley", "T1", false, [⟨Suit.s1, Rank.r9⟩]⟩,
      ⟨4, "Jimi Hendrix", "T2", false, [⟨Suit.s1, Rank.r10⟩]⟩],
    deck := [] }

/-! Helper lemmas. -/

/-- Rebuilding a server state from its own components is the identity. -/
theorem GameServer.eta_full (s : GameServer) (g : CardGame) (h : HandInfo)
    (sk : ScoreKeeper) (hg : s.cardGame = some g) (hh : s.hand = some h)
    (hsk : s.scores = some sk) :
    ({ s with cardGame := some g, hand := some h, scores := some sk } : GameServer) = s := by
  cases s
  cases hg
  cases hh
  cases hsk
  rfl

/-- A find-by-id hit has the id looked for. -/
theorem find_id_eq {l : List Player} {pid : Nat} {q : Player}
    (hq : l.find? (fun p => p.id == pid) = some q) : q.id = pid := by
  have := List.find?_some hq
  simpa using this

/-- Lemma: `idIndex` returns an in-bounds index pointing at the id looked for. -/
theorem idIndex_get? {l : List Nat} {pid i : Nat} (hi : idIndex l pid = some i) :
    l.get? i = some pid ∧ i < l.length := by
  induction l generalizing i with
  | nil => simp [idIndex] at hi
  | cons x rest ih =>
    by_cases hx : x == pid
    · simp [idIndex, hx] at hi
      have hxe : x = pid := by simpa using hx
      simp [← hi, hxe]
    · simp [idIndex, hx] at hi
      obtain ⟨j, hj, hji⟩ := hi
      obtain ⟨hget, hlt⟩ := ih hj
      subst hji
      exact ⟨by simpa using hget, Nat.succ_lt_succ hlt⟩

/-- The fold underlying `bestMove` picks an element of the candidate list. -/
theorem foldl_best_mem (val : PlayerMove → Nat) (rest : List PlayerMove) :
    ∀ m : PlayerMove,
      rest.foldl (fun best mv => if val best < val mv then mv else best) m ∈ m :: rest := by
  induction rest with
  | nil => intro m; simp
  | cons x xs ih =>
    intro m
    have hmem := ih (if val m < val x then x else m)
    have hsub : (if val m < val x then x else m) :: xs ⊆ m :: x :: xs := by
      intro a ha
      by_cases hvx : val m < val x
      · simp [hvx] at ha
        rcases ha with ha | ha <;> simp [ha]
      · simp [hvx] at ha
        rcases ha with ha | ha <;> simp [ha]
    simp only [List.foldl_cons]
    exact hsub hmem

/-- Lemma: `bestMove` returns an element of the candidate list. -/
theorem bestMove_mem {val : PlayerMove → Nat} {l : List PlayerMove} {m : PlayerMove}
    (hm : bestMove val l = some m) : m ∈ l := by
  cases l with
  | nil => simp [bestMove] at hm
  | cons x xs =>
    simp only [bestMove, Option.some.injEq] at hm
    have := foldl_best_mem val xs x
    rw [hm] at this
    exact this

/-- The winning move of a trick is one of its moves. -/
theorem decideWinner_mem {h : HandInfo} {t : Option Suit} {wm : PlayerMove}
    (hw : h.decideWinner t = some wm) : wm ∈ h.moves := by
  unfold HandInfo.decideWinner at hw
  by_cases hc : h.isComplete
  · rw [if_pos hc] at hw
    cases hled : h.ledSuit with
    | none => rw [hled] at hw; cases hw
    | some led =>
      rw [hled] at hw
      cases t with
      | none =>
        simp only [List.isEmpty_nil, if_true] at hw
        exact List.mem_of_mem_filter (bestMove_mem hw)
      | some tr =>
        simp only at hw
        by_cases he : (h.moves.filter (fun m => m.card.suit == tr)).isEmpty
        · rw [if_pos he] at hw
          exact List.mem_of_mem_filter (bestMove_mem hw)
        · rw [if_neg he] at hw
          exact List.mem_of_mem_filter (bestMove_mem hw)
  · rw [if_neg hc] at hw; cases hw

/-- A complete trick always has a winning move. -/
theorem decideWinner_isSome (h : HandInfo) (t : Option Suit)
    (hc : h.isComplete = true) : ∃ wm, h.decideWinner t = some wm := by
  have hne : h.moves ≠ [] := by
    intro he
    rw [HandInfo.isComplete, he] at hc
    simp [numPlayers] at hc
  obtain ⟨m0, rest, hm⟩ := List.exists_cons_of_ne_nil hne
  have hled : h.ledSuit = some m0.card.suit := by
    rw [HandInfo.ledSuit, hm]
    rfl
  unfold HandInfo.decideWinner
  rw [if_pos hc, hled]
  have hledfil : ∃ y ys, h.moves.filter (fun m => m.card.suit == m0.card.suit) = y :: ys := by
    have hm0 : m0 ∈ h.moves.filter (fun m => m.card.suit == m0.card.suit) := by
      rw [List.mem_filter]
      exact ⟨by rw [hm]; exact List.mem_cons_self m0 rest, by simp⟩
    cases hf : h.moves.filter (fun m => m.card.suit == m0.card.suit) with
    | nil => rw [hf] at hm0; cases hm0
    | cons y ys => exact ⟨y, ys, rfl⟩
  cases t with
  | none =>
    simp only [List.isEmpty_nil, if_true]
    obtain ⟨y, ys, hf⟩ := hledfil
    exact ⟨_, by rw [hf]; rfl⟩
  | some tr =>
    simp only
    by_cases he : (h.moves.filter (fun m => m.card.suit == tr)).isEmpty
    · rw [if_pos he]
      obtain ⟨y, ys, hf⟩ := hledfil
      exact ⟨_, by rw [hf]; rfl⟩
    · rw [if_neg he]
      cases htl : h.moves.filter (fun m => m.card.suit == tr) with
      | nil => rw [htl] at he; simp at he
      | cons y ys => exact ⟨_, rfl⟩

/-- One-step unfolding of the ask loop at positive fuel. -/
theorem askLoop_succ (fuel : Nat) (g : CardGame) (h : HandInfo) :
    askLoop (fuel + 1) g h =
      if h.isComplete then .ok (g, h, [])
      else
        match g.getNextPlayer h.getStep with
        | .error e => .error e
        | .ok player =>
          if player.isHuman then .ok (g, h, [Msg.askMove h])
          else
            match player.getNextMove h g.trumpSuit with
            | none => .error .cardNotInHand
            | some card =>
              match player.removeCard card with
              | .error e => .error e
              | .ok p2 =>
                askLoop fuel (g.updatePlayer p2) (h.addPlayerMove ⟨player, card⟩) := rfl

/-- A successful run of the ask loop ends in exactly one of two shapes:
the trick completed and no message was produced, or the loop suspended at
a Human player, producing exactly the one `askMove` message. -/
theorem askLoop_ok_cases :
    ∀ (fuel : Nat) (g g1 : CardGame) (h h1 : HandInfo) (msgs : List Msg),
      askLoop fuel g h = .ok (g1, h1, msgs) →
      (h1.isComplete = true ∧ msgs = []) ∨
      (h1.isComplete = false ∧ msgs = [Msg.askMove h1] ∧
        ∃ p, g1.getNextPlayer h1.getStep = .ok p ∧ p.isHuman = true) := by
  intro fuel
  induction fuel with
  | zero =>
    intro g g1 h h1 msgs heq
    by_cases hc : h.isComplete
    · rw [askLoop, if_pos hc] at heq
      obtain ⟨rfl, rfl, rfl⟩ : g = g1 ∧ h = h1 ∧ ([] : List Msg) = msgs := by
        simpa using heq
      exact Or.inl ⟨hc, rfl⟩
    · rw [askLoop, if_neg hc] at heq
      exact Except.noConfusion heq
  | succ fuel ih =>
    intro g g1 h h1 msgs heq
    rw [askLoop_succ] at heq
    by_cases hc : h.isComplete
    · rw [if_pos hc] at heq
      obtain ⟨rfl, rfl, rfl⟩ : g = g1 ∧ h = h1 ∧ ([] : List Msg) = msgs := by
        simpa using heq
      exact Or.inl ⟨hc, rfl⟩
    · rw [if_neg hc] at heq
      split at heq
      · exact Except.noConfusion heq
      · next player hnp =>
        by_cases hhum : player.isHuman
        · rw [if_pos hhum] at heq
          obtain ⟨rfl, rfl, rfl⟩ : g = g1 ∧ h = h1 ∧ [Msg.askMove h] = msgs := by
            simpa using heq
          exact Or.inr ⟨Bool.eq_false_iff.mpr hc, rfl, player, hnp, hhum⟩
        · rw [if_neg hhum] at heq
          split at heq
          · exact Except.noConfusion heq
          · next card hnm =>
            split at heq
            · exact Except.noConfusion heq
            · next p2 hrc => exact ih _ _ _ _ _ heq

/-- Dealing never touches the trump suit, the decided mark, the rotation
or the starting index. -/
theorem dealSteps_preserves (count : Nat) :
    ∀ (steps : List Nat) (g g1 : CardGame),
      CardGame.dealSteps count g steps = .ok g1 →
      g1.trumpSuit = g.trumpSuit ∧ g1.decided = g.decided ∧
        g1.playingOrder = g.playingOrder ∧
        g1.startingPlayerIndex = g.startingPlayerIndex := by
  intro steps
  induction steps with
  | nil =>
    intro g g1 heq
    simp only [CardGame.dealSteps, Except.ok.injEq] at heq
    cases heq
    exact ⟨rfl, rfl, rfl, rfl⟩
  | cons step rest ih =>
    intro g g1 heq
    rw [CardGame.dealSteps] at heq
    split at heq
    · exact Except.noConfusion heq
    · next p hpa =>
      split at heq
      · exact Except.noConfusion heq
      · have := ih _ _ heq
        simpa [CardGame.updatePlayer] using this

/-- A successful `chooseTrump` only records the chosen suit. -/
theorem chooseTrump_ok {g g1 : CardGame} {suit : Suit}
    (heq : g.chooseTrump suit = .ok g1) :
    g1 = { g with trumpSuit := some suit } := by
  unfold CardGame.chooseTrump at heq
  by_cases hf : g.firstDealt
  · rw [if_pos hf] at heq
    cases heq
    rfl
  · rw [if_neg hf] at heq
    cases heq

/-- A successful `changePlayingOrder` ran on an undecided match, only moved
the starting index, and left it pointing at the winner's id. -/
theorem changePlayingOrder_ok {g g2 : CardGame} {winner : Player}
    (heq : g.changePlayingOrder winner = .ok g2) :
    g.decided = none ∧
      g2 = { g with startingPlayerIndex := g2.startingPlayerIndex } ∧
      g2.playingOrder.get? (g2.startingPlayerIndex % g2.playingOrder.length) =
        some winner.id := by
  unfold CardGame.changePlayingOrder at heq
  by_cases hd : g.decided.isSome
  · rw [if_pos hd] at heq; cases heq
  · rw [if_neg hd] at heq
    cases hidx : idIndex g.playingOrder winner.id with
    | none => rw [hidx] at heq; cases heq
    | some i =>
      rw [hidx] at heq
      cases heq
      obtain ⟨hget, hlt⟩ := idIndex_get? hidx
      refine ⟨Option.not_isSome_iff_eq_none.mp hd, rfl, ?_⟩
      simpa [Nat.mod_eq_of_lt hlt] using hget

/-- The entry bump applied by `registerWin` preserves every key. -/
theorem registerWin_key (p : Player) (e : String × Nat) :
    (if e.1 == p.team then (e.1, e.2 + trickPoints) else e).1 = e.1 := by
  split <;> rfl

/-- The entry bump applied by `registerWin` never decreases a value. -/
theorem registerWin_val (p : Player) (e : String × Nat) :
    e.2 ≤ (if e.1 == p.team then (e.1, e.2 + trickPoints) else e).2 := by
  split
  · exact Nat.le_add_right _ _
  · exact Nat.le_refl _

/-- Lemma: `registerWin` never decreases any team's score. -/
theorem scoreOf_registerWin_le (sk : ScoreKeeper) (p : Player) (team : String) :
    sk.scoreOf team ≤ (sk.registerWin p).scoreOf team := by
  obtain ⟨entries⟩ := sk
  show ((entries.find? (fun e => e.1 == team)).map (fun e => e.2)).getD 0 ≤
    (((entries.map (fun e => if e.1 == p.team then (e.1, e.2 + trickPoints) else e)).find?
        (fun e => e.1 == team)).map (fun e => e.2)).getD 0
  induction entries with
  | nil => exact Nat.le_refl 0
  | cons e rest ih =>
    rw [List.map_cons]
    by_cases ht : (e.1 == team) = true
    · rw [@List.find?_cons_of_pos _ (fun x => x.1 == team) e rest ht]
      by_cases hp : (e.1 == p.team) = true
      · rw [if_pos hp,
          @List.find?_cons_of_pos _ (fun x => x.1 == team) (e.1, e.2 + trickPoints) _ ht]
        exact Nat.le_add_right _ _
      · rw [if_neg hp, @List.find?_cons_of_pos _ (fun x => x.1 == team) e _ ht]
    · rw [@List.find?_cons_of_neg _ (fun x => x.1 == team) e rest (by simpa using ht)]
      by_cases hp : (e.1 == p.team) = true
      · rw [if_pos hp,
          @List.find?_cons_of_neg _ (fun x => x.1 == team) (e.1, e.2 + trickPoints) _
            (by simpa using ht)]
        exact ih
      · rw [if_neg hp, @List.find?_cons_of_neg _ (fun x => x.1 == team) e _ (by simpa using ht)]
        exact ih

/-- Lemma: `clearTeamScores` zeroes every team. -/
theorem scoreOf_clearTeamScores (sk : ScoreKeeper) (team : String) :
    sk.clearTeamScores.scoreOf team = 0 := by
  obtain ⟨entries⟩ := sk
  show (((entries.map (fun e => (e.1, 0))).find? (fun e => e.1 == team)).map
      (fun e => e.2)).getD 0 = 0
  induction entries with
  | nil => rfl
  | cons e rest ih =>
    rw [List.map_cons]
    by_cases ht : (e.1 == team) = true
    · rw [@List.find?_cons_of_pos _ (fun x => x.1 == team) (e.1, 0) _ ht]
      rfl
    · rw [@List.find?_cons_of_neg _ (fun x => x.1 == team) (e.1, 0) _ (by simpa using ht)]
      exact ih

/-- A successful roster lookup returns a player bearing the id looked up. -/
theorem getPlayerById_id_eq {g : CardGame} {pid : Nat} {q : Player}
    (hq : g.getPlayerById pid = some q) : q.id = pid :=
  find_id_eq hq

/-! Claim theorems. -/

/-- C1, counterexample: on a concrete mid-match state with scores (5, 3),
the next-round action `nextGame` succeeds and leaves the team scores at
(0, 0) — it does not leave the accumulated team scores unchanged, because
`server.py` line 73 calls `clearTeamScores()` from `nextGame`. -/
theorem C1_counterexample :
    GameServer.nextGame c1Server wReq =
      .ok ({ c1Server with
             cardGame := some wGame.clearGame,
             scores := some (ScoreKeeper.mk [("T1", 0), ("T2", 0)]) },
           [Msg.nextGameResp])
    ∧ c1Server.scores = some (ScoreKeeper.mk [("T1", 5), ("T2", 3)])
    ∧ ScoreKeeper.mk [("T1", 0), ("T2", 0)] ≠ ScoreKeeper.mk [("T1", 5), ("T2", 3)] :=
  ⟨rfl, rfl, by decide⟩

/-- C1, amended: per-team scores are non-decreasing under `registerWin`,
and `clearTeamScores` zeroes them; but the next-round action `nextGame`
itself invokes `clearTeamScores` together with `clearGame`, so the scores
are reset at every next-round action, not only at a new-match action. -/
theorem C1_nextGame_resets_scores (s : GameServer) (req : Request)
    (g : CardGame) (sk : ScoreKeeper)
    (hg : s.cardGame = some g) (hsk : s.scores = some sk) :
    GameServer.nextGame s req =
      .ok ({ s with cardGame := some g.clearGame, scores := some sk.clearTeamScores },
           [Msg.nextGameResp])
    ∧ (∀ team, sk.clearTeamScores.scoreOf team = 0)
    ∧ (∀ (p : Player) (team : String),
        sk.scoreOf team ≤ (sk.registerWin p).scoreOf team) := by
  refine ⟨?_, fun team => scoreOf_clearTeamScores sk team,
    fun p team => scoreOf_registerWin_le sk p team⟩
  unfold GameServer.nextGame
  rw [hg, hsk]

/-- C1, witness for the amended theorem at the concrete mid-match state. -/
theorem C1_nextGame_resets_scores_witness :
    GameServer.nextGame c1Server wReq =
      .ok ({ c1Server with
             cardGame := some wGame.clearGame,
             scores := some c1Scores.clearTeamScores }, [Msg.nextGameResp])
    ∧ (∀ team, c1Scores.clearTeamScores.scoreOf team = 0)
    ∧ (∀ (p : Player) (team : String),
        c1Scores.scoreOf team ≤ (c1Scores.registerWin p).scoreOf team) :=
  C1_nextGame_resets_scores c1Server wReq wGame c1Scores rfl rfl

/-- C2: when `validatePlayerMove` rejects the requested card, `makeMove`
answers with a plain `invalidMove` notice addressed to the acting player,
adds nothing to the trick, and returns the server state exactly as it was,
so the player can retry from the pre-call state. -/
theorem C2_invalid_move_rejected (s : GameServer) (req : Request)
    (g : CardGame) (h : HandInfo) (player : Player)
    (hg : s.cardGame = some g) (hh : s.hand = some h)
    (hp : g.getPlayerById req.playerId = some player)
    (hv : h.validatePlayerMove ⟨player, ⟨req.suit, req.rank⟩⟩ g.trumpSuit = false) :
    GameServer.makeMove s req = .ok (s, [Msg.invalidMove req.playerId]) := by
  unfold GameServer.makeMove
  rw [hg, hh]
  dsimp only
  rw [hp]
  dsimp only
  rw [if_neg (by simp [hv])]

/-- C2, witness: the human holds a card of the led suit `s2` but plays an
off-suit ace; the move is rejected and the state untouched. -/
theorem C2_invalid_move_rejected_witness :
    GameServer.makeMove c2Server c2Req = .ok (c2Server, [Msg.invalidMove 1]) :=
  C2_invalid_move_rejected c2Server c2Req wGame wTrickLed wAlice rfl rfl rfl rfl

/-- C8: for every trick with a led suit, every trump suit and every move:
if the acting player holds a card of the led suit, the move is valid
exactly when it plays a held card of the led suit; if the player holds no
card of the led suit, the move is valid exactly when it plays any held
card (trump or off-suit discards included). -/
theorem C8_follow_suit_policy (h : HandInfo) (m : PlayerMove)
    (trumpSuit : Option Suit) (led : Suit)
    (hled : h.ledSuit = some led) :
    ((m.player.hand.any (fun c => c.suit == led)) = true →
      (h.validatePlayerMove m trumpSuit = true ↔
        m.card.suit = led ∧ m.card ∈ m.player.hand))
    ∧ ((m.player.hand.any (fun c => c.suit == led)) = false →
      (h.validatePlayerMove m trumpSuit = true ↔ m.card ∈ m.player.hand)) := by
  unfold HandInfo.validatePlayerMove
  rw [hled]
  dsimp only
  constructor
  · intro hhas
    rw [if_pos hhas]
    simp [Bool.and_eq_true, and_comm]
  · intro hhas
    rw [if_neg (by simp [hhas])]
    simp [Bool.and_eq_true]

/-- C8, witness: with led suit `s2`, the human holding {s2-9, s3-A} may
play exactly a held card of suit `s2`; playing the off-suit s3-A fails
the characterization's right-hand side. -/
theorem C8_follow_suit_policy_witness :
    ((wAlice.hand.any (fun c => c.suit == Suit.s2)) = true →
      (wTrickLed.validatePlayerMove ⟨wAlice, ⟨Suit.s3, Rank.rA⟩⟩ (some Suit.s4) = true ↔
        (Card.mk Suit.s3 Rank.rA).suit = Suit.s2 ∧
          (Card.mk Suit.s3 Rank.rA) ∈ wAlice.hand))
    ∧ ((wAlice.hand.any (fun c => c.suit == Suit.s2)) = false →
      (wTrickLed.validatePlayerMove ⟨wAlice, ⟨Suit.s3, Rank.rA⟩⟩ (some Suit.s4) = true ↔
        (Card.mk Suit.s3 Rank.rA) ∈ wAlice.hand)) :=
  C8_follow_suit_policy wTrickLed ⟨wAlice, ⟨Suit.s3, Rank.rA⟩⟩ (some Suit.s4) Suit.s2 rfl

/-- C9: `createPlayers` builds exactly four players with the single human
first; `startGame` forces `startingPlayerIndex := 0` before fixing the
rotation (the fairness rule is commented out in the source), so the human
player leads the first trick of every match. -/
theorem C9_human_leads_first_trick (s : GameServer) (req : Request) :
    (createPlayers req.playerName req.playerTeam req.opponentTeam).length = 4
    ∧ ((createPlayers req.playerName req.playerTeam req.opponentTeam).filter
        (fun p => p.isHuman)).length = 1
    ∧ ((createPlayers req.playerName req.playerTeam req.opponentTeam).head?.map
        (fun p => p.isHuman)) = some true
    ∧ ∃ g : CardGame,
        GameServer.startGame s req =
          .ok ({ s with
                 players := createPlayers req.playerName req.playerTeam req.opponentTeam,
                 cardGame := some g,
                 scores := some (ScoreKeeper.new
                   (createPlayers req.playerName req.playerTeam req.opponentTeam)) },
               [Msg.started g.players g.getOrder g.id])
        ∧ g.startingPlayerIndex = 0
        ∧ (g.getNextPlayer 0).map (fun p => (p.id, p.isHuman)) = .ok (1, true) := by
  refine ⟨rfl, rfl, rfl,
    ({ CardGame.new (createPlayers req.playerName req.playerTeam req.opponentTeam) with
        startingPlayerIndex := 0 } : CardGame).setPlayingOrder, rfl, rfl, rfl⟩

/-- C10: an inbound message whose command names no attribute of the game
server is only logged: no response message is produced and the server
state is returned unchanged. -/
theorem C10_unknown_command_ignored (s : GameServer) (req : Request)
    (hcmd : req.command ∉ gameServerAttrs) :
    GameServer.on_message s req = .ok (s, []) := by
  have h1 : ¬req.command = "startGame" := fun he => hcmd (by rw [he]; decide)
  have h2 : ¬req.command = "nextGame" := fun he => hcmd (by rw [he]; decide)
  have h3 : ¬req.command = "dealFirstCards" := fun he => hcmd (by rw [he]; decide)
  have h4 : ¬req.command = "chooseTrump" := fun he => hcmd (by rw [he]; decide)
  have h5 : ¬req.command = "makeMove" := fun he => hcmd (by rw [he]; decide)
  have h6 : ¬req.command = "isReady" := fun he => hcmd (by rw [he]; decide)
  unfold GameServer.on_message
  rw [if_neg h1, if_neg h2, if_neg h3, if_neg h4, if_neg h5, if_neg h6, if_neg hcmd]

/-- C10, witness: the unknown command "fooBar" is ignored. -/
theorem C10_unknown_command_ignored_witness :
    GameServer.on_message wServer
      { wReq with command := "fooBar" } = .ok (wServer, []) :=
  C10_unknown_command_ignored wServer { wReq with command := "fooBar" } (by decide)

/-- C3: inside the ask-players loop, an Automated player's move is
computed and added synchronously (one loop step becomes a recursive call
on the extended trick with the card removed from the hand); when the next
player is Human, the whole `askPlayers` action answers exactly one
`askMove` message and returns the state unchanged — no move is
materialized for the Human and the trick is untouched. -/
theorem C3_ask_players_suspends_at_human
    (s : GameServer) (g : CardGame) (h : HandInfo) (sk : ScoreKeeper) (p : Player)
    (hg : s.cardGame = some g) (hh : s.hand = some h) (hsk : s.scores = some sk)
    (hnc : h.isComplete = false)
    (hp : g.getNextPlayer h.getStep = .ok p) :
    (p.isHuman = true → GameServer.askPlayers s = .ok (s, [Msg.askMove h]))
    ∧ (p.isHuman = false → ∀ (c : Card) (p2 : Player) (fuel : Nat),
        p.getNextMove h g.trumpSuit = some c → p.removeCard c = .ok p2 →
        askLoop (fuel + 1) g h =
          askLoop fuel (g.updatePlayer p2) (h.addPlayerMove ⟨p, c⟩)) := by
  constructor
  · intro hhum
    have hloop : askLoop numPlayers g h = .ok (g, h, [Msg.askMove h]) := by
      rw [show numPlayers = 3 + 1 from rfl, askLoop_succ, if_neg (by simp [hnc]), hp]
      dsimp only
      rw [if_pos hhum]
    unfold GameServer.askPlayers
    rw [hg, hh, hsk]
    dsimp only
    rw [hloop]
    dsimp only
    rw [if_neg (by simp [hnc]), GameServer.eta_full s g h sk hg hh hsk]
  · intro hhum c p2 fuel hnm hrc
    rw [askLoop_succ, if_neg (by simp [hnc]), hp]
    dsimp only
    rw [if_neg (by simp [hhum]), hnm]
    dsimp only
    rw [hrc]

/-- C3, witness: on the concrete mid-round state with an empty trick and
the Human leading, `askPlayers` suspends with a single `askMove`. -/
theorem C3_ask_players_suspends_at_human_witness :
    GameServer.askPlayers wServer = .ok (wServer, [Msg.askMove ⟨[]⟩]) :=
  (C3_ask_players_suspends_at_human wServer wGame ⟨[]⟩ wScores wAlice
    rfl rfl rfl rfl rfl).1 rfl

/-- C4: when the ask loop hands back a complete trick, `askPlayers`
registers the winning move's player with the ScoreKeeper, re-anchors the
rotation so the winner leads next (`getNextPlayer 0` then returns the
roster player carrying the winner's id), and sends exactly one
`handPlayed` message with the completed trick, the winning card, the
winning player's id, and the updated scores. -/
theorem C4_trick_completion
    (s : GameServer) (g g1 g2 : CardGame) (h h1 : HandInfo) (sk : ScoreKeeper)
    (msgs : List Msg) (wm : PlayerMove) (q : Player)
    (hg : s.cardGame = some g) (hh : s.hand = some h) (hsk : s.scores = some sk)
    (hloop : askLoop numPlayers g h = .ok (g1, h1, msgs))
    (hc : h1.isComplete = true)
    (hw : h1.decideWinner g.trumpSuit = some wm)
    (hcp : g1.changePlayingOrder wm.player = .ok g2)
    (hq : g2.getPlayerById wm.player.id = some q) :
    GameServer.askPlayers s =
      .ok ({ s with
             cardGame := some g2, hand := some h1,
             scores := some (sk.registerWin wm.player) },
           [Msg.handPlayed h1 wm.card wm.player.id (sk.registerWin wm.player).getScores])
    ∧ g2.getNextPlayer 0 = .ok q ∧ q.id = wm.player.id ∧ wm ∈ h1.moves := by
  obtain ⟨hdec, hg2, hget⟩ := changePlayingOrder_ok hcp
  have hmsgs : msgs = [] := by
    rcases askLoop_ok_cases numPlayers g g1 h h1 msgs hloop with ⟨_, hm⟩ | ⟨hfalse, _⟩
    · exact hm
    · rw [hc] at hfalse; cases hfalse
  subst hmsgs
  have hd2 : g2.decided = none := by rw [hg2]; exact hdec
  refine ⟨?_, ?_, getPlayerById_id_eq hq, decideWinner_mem hw⟩
  · unfold GameServer.askPlayers
    rw [hg, hh, hsk]
    dsimp only
    rw [hloop]
    dsimp only
    rw [if_pos hc, hw]
    dsimp only
    rw [hcp]
    dsimp only
    rw [List.nil_append]
  · unfold CardGame.getNextPlayer
    rw [hd2, if_neg (by simp)]
    unfold CardGame.playerAt
    rw [Nat.add_zero, hget]
    dsimp only
    rw [hq]

/-- C4, witness: the concrete complete trick of four `s2` cards with the
10 led by the fourth player; the winner is registered, leads next, and a
single `handPlayed` is sent. -/
theorem C4_trick_completion_witness :
    GameServer.askPlayers c4Server =
      .ok ({ c4Server with
             cardGame := some { wGame with startingPlayerIndex := 3 },
             hand := some wTrick4,
             scores := some (wScores.registerWin wJimi) },
           [Msg.handPlayed wTrick4 (Card.mk Suit.s2 Rank.r10) 4
             (wScores.registerWin wJimi).getScores])
    ∧ ({ wGame with startingPlayerIndex := 3 } : CardGame).getNextPlayer 0 = .ok wJimi
    ∧ wJimi.id = 4
    ∧ (⟨wJimi, ⟨Suit.s2, Rank.r10⟩⟩ : PlayerMove) ∈ wTrick4.moves := by
  have := C4_trick_completion c4Server wGame wGame
    { wGame with startingPlayerIndex := 3 } wTrick4 wTrick4 wScores []
    ⟨wJimi, ⟨Suit.s2, Rank.r10⟩⟩ wJimi rfl rfl rfl rfl rfl rfl rfl rfl
  exact this

/-- C5: once `processWin` has marked the match concluded, the engine's
move/trick operations `getNextPlayer` and `changePlayingOrder` fail with
`MatchAlreadyDecidedError`, and consequently a `makeMove` request whose
card validates (whether it completes the trick or not) fails with that
error instead of silently doing nothing. -/
theorem C5_decided_is_sticky
    (s : GameServer) (req : Request) (g : CardGame) (h : HandInfo) (sk : ScoreKeeper)
    (t : String) (player p2 : Player)
    (hg : s.cardGame = some g) (hh : s.hand = some h) (hsk : s.scores = some sk)
    (hd : g.decided = some t)
    (hp : g.getPlayerById req.playerId = some player)
    (hv : h.validatePlayerMove ⟨player, ⟨req.suit, req.rank⟩⟩ g.trumpSuit = true)
    (hr : player.removeCard ⟨req.suit, req.rank⟩ = .ok p2) :
    (∀ step, g.getNextPlayer step = .error .matchAlreadyDecided)
    ∧ (∀ w : Player, g.changePlayingOrder w = .error .matchAlreadyDecided)
    ∧ GameServer.makeMove s req = .error .matchAlreadyDecided := by
  have hda : ∀ p3 : Player, (g.updatePlayer p3).decided = some t := by
    intro p3
    simp [CardGame.updatePlayer, hd]
  refine ⟨fun step => by simp [CardGame.getNextPlayer, hd],
    fun w => by simp [CardGame.changePlayingOrder, hd], ?_⟩
  unfold GameServer.makeMove
  rw [hg, hh]
  dsimp only
  rw [hp]
  dsimp only
  rw [if_pos hv, hr]
  dsimp only
  unfold GameServer.askPlayers
  dsimp only
  rw [hsk]
  dsimp only
  by_cases hc2 : (h.addPlayerMove ⟨player, ⟨req.suit, req.rank⟩⟩).isComplete
  · have hloop : askLoop numPlayers (g.updatePlayer p2)
        (h.addPlayerMove ⟨player, ⟨req.suit, req.rank⟩⟩) =
        .ok (g.updatePlayer p2, h.addPlayerMove ⟨player, ⟨req.suit, req.rank⟩⟩, []) := by
      rw [show numPlayers = 3 + 1 from rfl, askLoop_succ, if_pos hc2]
    obtain ⟨wm, hwm⟩ := decideWinner_isSome
      (h.addPlayerMove ⟨player, ⟨req.suit, req.rank⟩⟩) (g.updatePlayer p2).trumpSuit hc2
    have hcpo : (g.updatePlayer p2).changePlayingOrder wm.player =
        .error .matchAlreadyDecided := by
      simp [CardGame.changePlayingOrder, hda p2]
    rw [hloop]
    dsimp only
    rw [if_pos hc2, hwm]
    dsimp only
    rw [hcpo]
  · have hnp2 : (g.updatePlayer p2).getNextPlayer
        (h.addPlayerMove ⟨player, ⟨req.suit, req.rank⟩⟩).getStep =
        .error .matchAlreadyDecided := by
      simp [CardGame.getNextPlayer, hda p2]
    have hloop : askLoop numPlayers (g.updatePlayer p2)
        (h.addPlayerMove ⟨player, ⟨req.suit, req.rank⟩⟩) =
        .error .matchAlreadyDecided := by
      rw [show numPlayers = 3 + 1 from rfl, askLoop_succ, if_neg (by simp [hc2]), hnp2]
    rw [hloop]

/-- C5, witness: on the concrete decided match, the human's legal lead
fails with `MatchAlreadyDecidedError`, as do the rotation operations. -/
theorem C5_decided_is_sticky_witness :
    (∀ step, c5Game.getNextPlayer step = .error .matchAlreadyDecided)
    ∧ (∀ w : Player, c5Game.changePlayingOrder w = .error .matchAlreadyDecided)
    ∧ GameServer.makeMove c5Server c5Req = .error .matchAlreadyDecided :=
  C5_decided_is_sticky c5Server c5Req c5Game ⟨[]⟩ wScores "T2" wAlice
    ⟨1, "Alice", "T1", true, [⟨Suit.s3, Rank.rA⟩]⟩ rfl rfl rfl rfl rfl rfl rfl

/-- A successful `askPlayers` run that hands back an incomplete trick
suspended at a Human player: the messages are exactly one `askMove`. -/
theorem askPlayers_suspended (s s1 : GameServer) (msgs : List Msg)
    (g1 : CardGame) (h1 : HandInfo)
    (hap : GameServer.askPlayers s = .ok (s1, msgs))
    (hcg : s1.cardGame = some g1) (hhand : s1.hand = some h1)
    (hinc : h1.isComplete = false) :
    msgs = [Msg.askMove h1] ∧
      ∃ p, g1.getNextPlayer h1.getStep = .ok p ∧ p.isHuman = true := by
  unfold GameServer.askPlayers at hap
  split at hap
  · next x1 x2 x3 g h sk hgE hhE hskE =>
    split at hap
    · exact Except.noConfusion hap
    · next xloop ga ha ms hloop =>
      split at hap
      · next hcomp =>
        dsimp only at hap
        split at hap
        · exact Except.noConfusion hap
        · next xw wm hwm =>
          split at hap
          · exact Except.noConfusion hap
          · next xcp g2 hcpo =>
            injection hap with hpair
            injection hpair with hs1 hmsgs
            rw [← hs1] at hhand
            dsimp only at hhand
            injection hhand with hh1
            rw [← hh1] at hinc
            rw [hinc] at hcomp
            exact Bool.noConfusion hcomp
      · next hcomp =>
        injection hap with hpair
        injection hpair with hs1 hmsgs
        rw [← hs1] at hhand hcg
        dsimp only at hhand hcg
        injection hhand with hh1
        injection hcg with hg1
        subst hh1
        subst hg1
        subst hmsgs
        rcases askLoop_ok_cases numPlayers g ga h ha ms hloop with ⟨hcm, _⟩ | ⟨_, hm, hp⟩
        · rw [hcm] at hcomp
          exact absurd rfl hcomp
        · exact ⟨hm, hp⟩
  · exact Except.noConfusion hap

/-- C6: a round-outcome check takes exactly one of two branches.  If the
ScoreKeeper reports the match decided, `processWin` marks the game for
the winning team and the single `gameDecided` response carries the final
scores and that team.  Otherwise a fresh empty trick is installed and the
ask-players sequence runs on it; whenever that run suspends (hands back
an incomplete trick), its output is exactly one trick-ask directed at a
Human player. -/
theorem C6_isReady_two_outcomes
    (s : GameServer) (req : Request) (sk : ScoreKeeper)
    (hsk : s.scores = some sk) :
    (sk.isGameDecided = true →
      ∀ (g : CardGame) (team : String), s.cardGame = some g →
        sk.getWinningTeam = .ok team →
        GameServer.isReady s req =
          .ok ({ s with cardGame := some (g.processWin team) },
               [Msg.gameDecided sk.getScores team])
        ∧ (g.processWin team).decided = some team)
    ∧ (sk.isGameDecided = false →
      GameServer.isReady s req = GameServer.askPlayers { s with hand := some ⟨[]⟩ }
      ∧ ∀ (s1 : GameServer) (msgs : List Msg) (g1 : CardGame) (h1 : HandInfo),
          GameServer.askPlayers { s with hand := some ⟨[]⟩ } = .ok (s1, msgs) →
          s1.cardGame = some g1 → s1.hand = some h1 → h1.isComplete = false →
          msgs = [Msg.askMove h1]
          ∧ ∃ p, g1.getNextPlayer h1.getStep = .ok p ∧ p.isHuman = true) := by
  constructor
  · intro hdec g team hg hteam
    constructor
    · unfold GameServer.isReady
      rw [hsk]
      dsimp only
      rw [if_pos hdec, hg]
      dsimp only
      rw [hteam]
    · rfl
  · intro hnd
    constructor
    · unfold GameServer.isReady
      rw [hsk]
      dsimp only
      rw [if_neg (by simp [hnd])]
    · intro s1 msgs g1 h1 hap hcg hhand hinc
      exact askPlayers_suspended _ _ _ _ _ hap hcg hhand hinc

/-- C6, witness: on the concrete decided ScoreKeeper (16 to 3), `isReady`
invokes `processWin` for the leading team and sends the single
`gameDecided` response with the final scores. -/
theorem C6_isReady_two_outcomes_witness :
    GameServer.isReady c6Server wReq =
      .ok ({ c6Server with cardGame := some (wGame.processWin "T1") },
           [Msg.gameDecided c6Scores.getScores "T1"])
    ∧ (wGame.processWin "T1").decided = some "T1" :=
  (C6_isReady_two_outcomes c6Server wReq c6Scores rfl).1 rfl wGame "T1" rfl rfl

/-- C7: a successful choose-trump action records the trump suit and deals
the remainder of the deck within the same action; the single response
carries the acting player's complete hand and the chosen suit, and the
resulting game state carries the chosen trump.  Dealing the remainder on
any game whose trump suit is unset fails with `DealOrderError`. -/
theorem C7_chooseTrump_deals_remainder
    (s : GameServer) (req : Request) (g g1 g2 : CardGame) (player : Player)
    (hg : s.cardGame = some g)
    (hct : g.chooseTrump req.suit = .ok g1)
    (hdc : g1.dealCards = .ok g2)
    (hp : g2.getPlayerById req.playerId = some player) :
    GameServer.chooseTrump s req =
      .ok ({ s with cardGame := some g2 }, [Msg.allCards player.hand req.suit])
    ∧ g2.trumpSuit = some req.suit
    ∧ (∀ g0 : CardGame, g0.trumpSuit = none → g0.dealCards = .error .dealOrder) := by
  refine ⟨?_, ?_, ?_⟩
  · unfold GameServer.chooseTrump
    rw [hg]
    dsimp only
    rw [hct]
    dsimp only
    rw [hdc]
    dsimp only
    rw [hp]
  · have h1 := chooseTrump_ok hct
    subst h1
    unfold CardGame.dealCards at hdc
    dsimp only at hdc
    obtain ⟨htr, _, _, _⟩ := dealSteps_preserves _ _ _ _ hdc
    rw [htr]
  · intro g0 h0
    unfold CardGame.dealCards
    rw [h0]

/-- C7, witness: on the concrete four-card remainder deck, choosing trump
`s2` deals one card to each seat in rotation order and answers with the
acting player's full hand and the chosen suit; a trump-less deal fails. -/
theorem C7_chooseTrump_deals_remainder_witness :
    GameServer.chooseTrump c7Server c7Req =
      .ok ({ c7Server with cardGame := some c7GameB },
           [Msg.allCards [⟨Suit.s1, Rank.r7⟩] Suit.s2])
    ∧ c7GameB.trumpSuit = some Suit.s2
    ∧ (∀ g0 : CardGame, g0.trumpSuit = none → g0.dealCards = .error .dealOrder) :=
  C7_chooseTrump_deals_remainder c7Server c7Req c7Game c7GameA c7GameB
    ⟨1, "Alice", "T1", true, [⟨Suit.s1, Rank.r7⟩]⟩ rfl rfl rfl rfl

end Troefcall
